import Mathlib

/-!
Verification of the color-scale / legend / statistics engine of the
climate-risk web tool.

The JavaScript core is shallowly embedded here:
* JS numbers are modelled by `ℚ`; a possibly missing numeric entry
  (`null` / `undefined` / `NaN`) is `Option ℚ` with `none` for the
  invalid cases, so `v !== null && v !== undefined && !isNaN(v)`
  becomes `Option.isSome`.
* A chroma-js scale `chroma.scale(colors).domain(d).mode(m)` is a record
  of its color list, domain control points and interpolation mode.
  Evaluating a scale at a control point yields that control color
  exactly, values outside the domain clamp to the end colors, and a
  value strictly between two control points yields a symbolic
  interpolation `ColorOut.mix` carrying the local parameter — enough to
  state every property the specification asserts about colors.

Two revisions of the color-mapping module exist in the repository: the
current `src/utils/colorMapping.js` (namespace `ColorMapping`) and an
earlier revision (namespace `ColorMappingV0`) that still derives the
palette from `risk_direction` and also holds the district aggregator.
Functions whose bodies are identical in both revisions
(`getColorForValue`, `generateLegendItems`, `calculateStatistics`) are
defined once, in `ColorMapping`.
-/

namespace ClimateRisk

/-- A JavaScript numeric slot: `none` models `null`/`undefined`/`NaN`,
`some q` a finite number. -/
abbrev JVal := Option ℚ

/-- `values.filter(v => v !== null && v !== undefined && !isNaN(v))`:
keep exactly the entries holding a finite number. -/
def filterValid : List JVal → List ℚ
  | [] => []
  | none :: rest => filterValid rest
  | some v :: rest => v :: filterValid rest

/-- Index-metadata record as delivered by the API.  The two historical
schema revisions use different field names
(`color_palette_type`/`color_scheme`/`anomaly_direction` vs
`color_scheme`/`risk_direction`); a single record carries all of them,
each optional. -/
structure IndexMetadata where
  color_palette_type : Option String
  color_scheme : Option String
  anomaly_direction : Option String
  risk_direction : Option String
deriving DecidableEq

/-- Result of evaluating a chroma scale at one value: either exactly a
control color (`hex`), or a symbolic perceptual interpolation between
two adjacent control colors at local parameter `t ∈ (0,1)`. -/
inductive ColorOut where
  | hex (s : String)
  | mix (lo hi : String) (t : ℚ) (mode : String)
deriving DecidableEq

/-- Model of a chroma-js scale object: `chroma.scale(colors)` with its
`.domain(...)` control points and `.mode(...)` interpolation space. -/
structure ChromaScale where
  colors : List String
  domain : List ℚ
  mode : String
deriving DecidableEq

/-- `chroma.scale(colors)` — default domain `[0,1]`, default mode rgb. -/
def chromaScaleOf (colors : List String) : ChromaScale :=
  { colors := colors, domain := [0, 1], mode := "rgb" }

/-- `.domain(d)` setter on a chroma scale. -/
def ChromaScale.setDomain (s : ChromaScale) (d : List ℚ) : ChromaScale :=
  { s with domain := d }

/-- `.mode(m)` setter on a chroma scale. -/
def ChromaScale.setMode (s : ChromaScale) (m : String) : ChromaScale :=
  { s with mode := m }

/-- Evaluation of a scale over its (domain point, color) control pairs:
clamped below the first point and above the last, exact at control
points, symbolic interpolation strictly between neighbours. -/
def evalSegments (mode : String) : List (ℚ × String) → ℚ → ColorOut
  | [], _ => ColorOut.hex "#000000"
  | [(_, c)], _ => ColorOut.hex c
  | (d₁, c₁) :: (d₂, c₂) :: rest, x =>
    if x ≤ d₁ then ColorOut.hex c₁
    else if x < d₂ then ColorOut.mix c₁ c₂ ((x - d₁) / (d₂ - d₁)) mode
    else evalSegments mode ((d₂, c₂) :: rest) x

/-- `scale(x)` for a chroma scale whose domain lists one position per
color (the only configuration this code base builds). -/
def ChromaScale.eval (s : ChromaScale) (x : ℚ) : ColorOut :=
  evalSegments s.mode (s.domain.zip s.colors) x

/-- `Math.min(...l)` for a non-empty list (the code only spreads
non-empty lists into it). -/
def jsMin : List ℚ → ℚ
  | [] => 0
  | x :: xs => xs.foldl min x

/-- `Math.max(...l)` for a non-empty list. -/
def jsMax : List ℚ → ℚ
  | [] => 0
  | x :: xs => xs.foldl max x

/-- `Number.prototype.toFixed(2)`: sign peeled off first, then the
magnitude rounded to an integer count of hundredths, ties to the larger
integer (ECMA-262 21.1.3.3). -/
def toFixed2 (q : ℚ) : String :=
  let sign := if q < 0 then "-" else ""
  let n : ℕ := (⌊|q| * 100 + 1/2⌋).toNat
  let frac := n % 100
  sign ++ toString (n / 100) ++ "." ++
    (if frac < 10 then "0" ++ toString frac else toString frac)

namespace ColorMapping

/-- The `COLOR_SCHEMES` lookup table of `src/utils/colorMapping.js`:
ColorBrewer 3-point diverging palettes keyed by the API's
`color_scheme` field. -/
def COLOR_SCHEMES : String → Option (List String)
  | "RdBu_r" => some ["#2166ac", "#f7f7f7", "#b2182b"]
  | "BuRd" => some ["#b2182b", "#f7f7f7", "#2166ac"]
  | "RdBu" => some ["#2166ac", "#f7f7f7", "#b2182b"]
  | _ => none

/-- `getColorScale(indexMetadata, values = [])` of
`src/utils/colorMapping.js` (current revision: `anomaly_direction` is
destructured but never used). -/
def getColorScale (indexMetadata : Option IndexMetadata)
    (values : List JVal := []) : ChromaScale :=
  match indexMetadata with
  | none => (chromaScaleOf ["#3388ff"]).setDomain [0, 1]
  | some md =>
    let validValues := filterValid values
    let min := if validValues.length > 0 then jsMin validValues else -1
    let max := if validValues.length > 0 then jsMax validValues else 1
    let absMax := Max.max |min| |max|
    if md.color_palette_type = some "diverging" then
      let colors := (md.color_scheme.bind COLOR_SCHEMES).getD
        ["#2166ac", "#f7f7f7", "#b2182b"]
      (((chromaScaleOf colors).setDomain [-absMax, 0, absMax]).setMode "lab")
    else
      (((chromaScaleOf ["#2166ac", "#f7f7f7", "#b2182b"]).setDomain
        [-absMax, 0, absMax]).setMode "lab")

/-- `getColorForValue(value, colorScale)` (identical in both module
revisions): gray `#cccccc` for a missing value, otherwise the scale
evaluated at the value. -/
def getColorForValue (value : JVal) (colorScale : ChromaScale) : ColorOut :=
  match value with
  | none => ColorOut.hex "#cccccc"
  | some v => colorScale.eval v

/-- One legend entry `{value, color, label}`. -/
structure LegendItem where
  value : ℚ
  color : ColorOut
  label : String
deriving DecidableEq

/-- `generateLegendItems(colorScale, steps = 7)` (identical in both
module revisions). -/
def generateLegendItems (colorScale : ChromaScale)
    (steps : ℕ := 7) : List LegendItem :=
  let domain := colorScale.domain
  let min := domain.getD 0 0
  let max := domain.getD (domain.length - 1) 0
  let step := (max - min) / ((steps : ℚ) - 1)
  (List.range steps).map fun (i : ℕ) =>
    let value := min + step * (i : ℚ)
    { value := value, color := colorScale.eval value, label := toFixed2 value }

/-- Statistics record `{min, max, mean, median}`. -/
structure Statistics where
  min : ℚ
  max : ℚ
  mean : ℚ
  median : ℚ
deriving DecidableEq

/-- `calculateStatistics(values)` (identical in both module revisions).
The JS `sort((a,b) => a-b)` is an ascending stable sort, modelled by
`List.insertionSort (· ≤ ·)`. -/
def calculateStatistics (values : List JVal) : Statistics :=
  let validValues := filterValid values
  if validValues.length = 0 then
    { min := 0, max := 0, mean := 0, median := 0 }
  else
    let sorted := List.insertionSort (· ≤ ·) validValues
    { min := sorted.getD 0 0
      max := sorted.getD (sorted.length - 1) 0
      mean := (validValues.foldl (· + ·) 0) / (validValues.length : ℚ)
      median := sorted.getD (sorted.length / 2) 0 }

end ColorMapping

namespace ColorMappingV0

/-- `getColorScale(indexMetadata, values = [])` of the earlier module
revision: a first `switch` picks a 9-color ramp from `color_scheme`,
but every branch of the second `switch` on `risk_direction`
(including its default) overwrites both `colors` and `domain`, so the
palette actually used is decided by the direction field. -/
def getColorScale (indexMetadata : Option IndexMetadata)
    (values : List JVal := []) : ChromaScale :=
  match indexMetadata with
  | none => (chromaScaleOf ["#3388ff"]).setDomain [0, 1]
  | some md =>
    let direction := md.risk_direction
    let validValues := filterValid values
    let min := if validValues.length > 0 then jsMin validValues else -1
    let max := if validValues.length > 0 then jsMax validValues else 1
    let absMax := Max.max |min| |max|
    -- first switch (`color_scheme` → 9-color ColorBrewer ramp); dead in
    -- the source because the direction switch below reassigns `colors`
    -- on every path, reproduced here for fidelity
    let _colors : List String :=
      match md.color_scheme with
      | some "RdBu_r" => ["#2166ac", "#4393c3", "#92c5de", "#d1e5f0",
          "#f7f7f7", "#fddbc7", "#f4a582", "#d6604d", "#b2182b"]
      | some "BuRd" => ["#b2182b", "#d6604d", "#f4a582", "#fddbc7",
          "#f7f7f7", "#d1e5f0", "#92c5de", "#4393c3", "#2166ac"]
      | some "RdBu" => ["#b2182b", "#d6604d", "#f4a582", "#fddbc7",
          "#f7f7f7", "#d1e5f0", "#92c5de", "#4393c3", "#2166ac"]
      | _ => ["#2166ac", "#4393c3", "#92c5de", "#d1e5f0",
          "#f7f7f7", "#fddbc7", "#f4a582", "#d6604d", "#b2182b"]
    -- second switch (`risk_direction` → domain and colors)
    let pair : List ℚ × List String :=
      match direction with
      | some "higher_worse" =>
        ([-absMax, 0, absMax], ["#2166ac", "#f7f7f7", "#b2182b"])
      | some "lower_worse" =>
        ([-absMax, 0, absMax], ["#b2182b", "#f7f7f7", "#2166ac"])
      | some "neutral" =>
        ([-absMax, 0, absMax], ["#b2182b", "#f7f7f7", "#2166ac"])
      | _ =>
        ([-absMax, 0, absMax], ["#2166ac", "#f7f7f7", "#b2182b"])
    ((chromaScaleOf pair.2).setDomain pair.1).setMode "lab"

/-- Municipality entry pushed onto a district's member list
(`{id, name, code, value, area}`). -/
structure MuniEntry where
  id : String
  name : String
  code : String
  value : JVal
  area : Option ℚ
deriving DecidableEq

/-- The feature properties consumed by the aggregator. -/
structure FeatureProps where
  id : String
  municipality_name : String
  municipality_code : String
  value : JVal
  area_km2 : Option ℚ
  district_code : String
  district_name : String
deriving DecidableEq

/-- One GeoJSON feature. -/
structure Feature where
  properties : FeatureProps
deriving DecidableEq

/-- A GeoJSON FeatureCollection. -/
structure FeatureCollection where
  features : List Feature
deriving DecidableEq

/-- Per-district accumulator built during the grouping pass
(`{code, name, municipalities, values, count, totalArea}`). -/
structure DistrictAcc where
  code : String
  name : String
  municipalities : List MuniEntry
  values : List ℚ
  count : ℕ
  totalArea : ℚ
deriving DecidableEq

/-- The fresh entry created when a district code is first seen. -/
def initDistrict (p : FeatureProps) : DistrictAcc :=
  { code := p.district_code, name := p.district_name,
    municipalities := [], values := [], count := 0, totalArea := 0 }

/-- The per-feature mutation of its district's accumulator: push the
municipality record, push the value when valid, bump `count`, add
`area_km2 || 0` to `totalArea`. -/
def pushFeature (d : DistrictAcc) (p : FeatureProps) : DistrictAcc :=
  { d with
    municipalities := d.municipalities ++
      [⟨p.id, p.municipality_name, p.municipality_code, p.value, p.area_km2⟩]
    values := d.values ++ (match p.value with | some v => [v] | none => [])
    count := d.count + 1
    totalArea := d.totalArea + p.area_km2.getD 0 }

/-- One iteration of the grouping loop: create the district slot if the
code is new (JS object insertion order = append), then mutate it. -/
def addFeature (districts : List (String × DistrictAcc))
    (p : FeatureProps) : List (String × DistrictAcc) :=
  let withKey :=
    if (districts.find? (fun e => e.1 == p.district_code)).isSome then
      districts
    else
      districts ++ [(p.district_code, initDistrict p)]
  withKey.map fun e =>
    if e.1 == p.district_code then (e.1, pushFeature e.2 p) else e

/-- The rational part of `calculateStdDev(values)`: the population
variance `Σ (v - mean)² / n` of the valid entries (the value fed to
`Math.sqrt`). -/
def stdDevVariance (values : List JVal) : ℚ :=
  let validValues := filterValid values
  let mean := (validValues.foldl (· + ·) 0) / (validValues.length : ℚ)
  (validValues.foldl (fun acc val => acc + (val - mean) ^ 2) 0) /
    (validValues.length : ℚ)

/-- `calculateStdDev(values)`: population standard deviation
(`Math.sqrt` of the variance divided by `n`), `0` for an empty valid
sample.  `Math.sqrt` is modelled by the exact real square root. -/
noncomputable def calculateStdDev (values : List JVal) : ℝ :=
  if (filterValid values).length = 0 then 0
  else Real.sqrt ((stdDevVariance values : ℚ) : ℝ)

/-- A finished district aggregate: the accumulator fields plus the
statistics written onto the same object by the second pass. -/
structure DistrictAgg where
  code : String
  name : String
  municipalities : List MuniEntry
  values : List ℚ
  count : ℕ
  totalArea : ℚ
  aggregatedValue : ℚ
  min : ℚ
  max : ℚ
  median : ℚ
  stdDev : ℝ

/-- The second pass of `aggregateByDistrict`: write
`aggregatedValue = stats.mean`, `min`, `max`, `median`, `stdDev` onto
the district object. -/
noncomputable def finalizeDistrict (d : DistrictAcc) : DistrictAgg :=
  let stats := ColorMapping.calculateStatistics (d.values.map some)
  { code := d.code, name := d.name, municipalities := d.municipalities,
    values := d.values, count := d.count, totalArea := d.totalArea,
    aggregatedValue := stats.mean, min := stats.min, max := stats.max,
    median := stats.median, stdDev := calculateStdDev (d.values.map some) }

/-- `aggregateByDistrict(geojson)`: group features by `district_code`,
then compute the per-district statistics. -/
noncomputable def aggregateByDistrict
    (geojson : Option FeatureCollection) : List (String × DistrictAgg) :=
  match geojson with
  | none => []
  | some fc =>
    let districts :=
      fc.features.foldl (fun ds f => addFeature ds f.properties) []
    districts.map fun e => (e.1, finalizeDistrict e.2)

/-- `districts[code]` on the keyed result object. -/
def lookupKey {α : Type} (l : List (String × α)) (code : String) : Option α :=
  (l.find? (fun e => e.1 == code)).map (fun e => e.2)

end ColorMappingV0

/-- The symmetric-domain radius the specification describes:
`max(|min|, |max|)` over the valid sample, with `min`/`max` falling
back to `-1`/`1` when no valid value exists — the same computation
`getColorScale` performs inline. -/
def absMaxOf (values : List JVal) : ℚ :=
  let validValues := filterValid values
  let min := if validValues.length > 0 then jsMin validValues else -1
  let max := if validValues.length > 0 then jsMax validValues else 1
  Max.max |min| |max|

instance : Inhabited ColorMapping.LegendItem :=
  ⟨{ value := 0, color := ColorOut.hex "#000000", label := "" }⟩

/-- Diverging metadata record used by the concrete scale round-trip. -/
def mdDiverging : IndexMetadata :=
  { color_palette_type := some "diverging"
    color_scheme := some "RdBu_r"
    anomaly_direction := some "positive_bad"
    risk_direction := none }

/-- The concrete sample `[-5, 0, 5, 10]`. -/
def sampleRoundTrip : List JVal := [some (-5), some 0, some 5, some 10]

/-- Metadata with `risk_direction: 'higher_worse'` (old schema). -/
def mdHigherWorse : IndexMetadata :=
  { color_palette_type := none
    color_scheme := some "RdBu_r"
    anomaly_direction := none
    risk_direction := some "higher_worse" }

/-- Metadata identical to `mdHigherWorse` except for the direction
field (`risk_direction: 'lower_worse'`). -/
def mdLowerWorse : IndexMetadata :=
  { color_palette_type := none
    color_scheme := some "RdBu_r"
    anomaly_direction := none
    risk_direction := some "lower_worse" }

/-- First municipality of district DC1: value 10, area 5. -/
def propsDC1a : ColorMappingV0.FeatureProps :=
  { id := "m1"
    municipality_name := "Muni A"
    municipality_code := "MA"
    value := some 10
    area_km2 := some 5
    district_code := "DC1"
    district_name := "District One" }

/-- Second municipality of district DC1: value 20, area 7. -/
def propsDC1b : ColorMappingV0.FeatureProps :=
  { id := "m2"
    municipality_name := "Muni B"
    municipality_code := "MB"
    value := some 20
    area_km2 := some 7
    district_code := "DC1"
    district_name := "District One" }

/-- Feature collection with exactly the two DC1 municipalities. -/
def fcDC1 : ColorMappingV0.FeatureCollection :=
  { features := [⟨propsDC1a⟩, ⟨propsDC1b⟩] }

/-- A DC1 municipality whose value is missing (`null`). -/
def propsDC1null : ColorMappingV0.FeatureProps :=
  { id := "m3"
    municipality_name := "Muni C"
    municipality_code := "MC"
    value := none
    area_km2 := some 3
    district_code := "DC1"
    district_name := "District One" }

/-- Feature collection mixing a valid and a missing value in DC1. -/
def fcDC1WithNull : ColorMappingV0.FeatureCollection :=
  { features := [⟨propsDC1a⟩, ⟨propsDC1null⟩] }

/-! ## Helper lemmas -/

theorem filterValid_map_some (l : List ℚ) : filterValid (l.map some) = l := by
  induction l with
  | nil => rfl
  | cons x xs ih => simp [filterValid, ih]

theorem foldl_add_eq_add_sum (l : List ℚ) (a : ℚ) :
    l.foldl (· + ·) a = a + l.sum := by
  induction l generalizing a with
  | nil => simp
  | cons x xs ih => simp [List.foldl_cons, ih (a + x)]; ring

theorem sorted_getD_zero_le {l : List ℚ} (hs : l.Sorted (· ≤ ·)) {x : ℚ}
    (hx : x ∈ l) : l.getD 0 0 ≤ x := by
  cases l with
  | nil => cases hx
  | cons a t =>
    rcases List.mem_cons.mp hx with rfl | hxt
    · exact le_refl x
    · exact (List.sorted_cons.mp hs).1 x hxt

theorem le_sorted_getD_last {l : List ℚ} (hs : l.Sorted (· ≤ ·)) :
    ∀ x ∈ l, x ≤ l.getD (l.length - 1) 0 := by
  induction l with
  | nil => intro x hx; cases hx
  | cons a t ih =>
    intro x hx
    cases t with
    | nil =>
      rcases List.mem_cons.mp hx with rfl | hxt
      · exact le_refl x
      · cases hxt
    | cons b t' =>
      have hcons := List.sorted_cons.mp hs
      have hlast : (a :: b :: t').getD ((a :: b :: t').length - 1) 0
          = (b :: t').getD ((b :: t').length - 1) 0 := by
        simp [List.getD]
      rw [hlast]
      rcases List.mem_cons.mp hx with rfl | hxt
      · exact le_trans (hcons.1 b (List.mem_cons_self b t'))
          (ih hcons.2 b (List.mem_cons_self b t'))
      · exact ih hcons.2 x hxt

/-! ## Claims -/

/-- Claim C1.  The specification's invariant — the direction field must
not influence which palette or domain `getColorScale` chooses — holds
for the current revision of the module (first conjunct: two metadata
records identical except for their `anomaly_direction`/`risk_direction`
fields produce identical scales for every sample), but the earlier
revision still shipped in the repository violates it: with
`color_scheme` fixed to `'RdBu_r'`, switching `risk_direction` from
`'higher_worse'` to `'lower_worse'` flips the palette (second
conjunct). -/
theorem direction_field_palette_independence :
    (∀ (cpt cs a₁ r₁ a₂ r₂ : Option String) (values : List JVal),
      ColorMapping.getColorScale
          (some { color_palette_type := cpt, color_scheme := cs,
                  anomaly_direction := a₁, risk_direction := r₁ }) values
        = ColorMapping.getColorScale
          (some { color_palette_type := cpt, color_scheme := cs,
                  anomaly_direction := a₂, risk_direction := r₂ }) values)
    ∧ ColorMappingV0.getColorScale (some mdHigherWorse) []
        ≠ ColorMappingV0.getColorScale (some mdLowerWorse) [] := by
  constructor
  · intro cpt cs a₁ r₁ a₂ r₂ values
    rfl
  · norm_num [ColorMappingV0.getColorScale, mdHigherWorse, mdLowerWorse,
      filterValid, jsMin, jsMax, chromaScaleOf, ChromaScale.setDomain,
      ChromaScale.setMode]
    intro h
    exact absurd h (by decide)

/-- Claim C2.  For every non-null metadata record and every sample, the
scale built by `getColorScale` has the symmetric three-point domain
`[-absMax, 0, absMax]`, where `absMax` is the larger of `|min|` and
`|max|` over the valid values (falling back to `-1`/`1` for an empty
valid sample); in particular `domain[0] = -domain[2]` and
`domain[1] = 0`. -/
theorem getColorScale_domain_symmetric (md : IndexMetadata)
    (values : List JVal) :
    (ColorMapping.getColorScale (some md) values).domain
        = [-(absMaxOf values), 0, absMaxOf values]
    ∧ (ColorMapping.getColorScale (some md) values).domain.getD 0 0
        = -((ColorMapping.getColorScale (some md) values).domain.getD 2 0)
    ∧ (ColorMapping.getColorScale (some md) values).domain.getD 1 0 = 0 := by
  have h : (ColorMapping.getColorScale (some md) values).domain
      = [-(absMaxOf values), 0, absMaxOf values] := by
    rw [ColorMapping.getColorScale, absMaxOf]
    split <;> rfl
  refine ⟨h, ?_, ?_⟩ <;> rw [h] <;> rfl

/-- Claim C5.  Building a scale from diverging metadata and the sample
`[-5, 0, 5, 10]` yields `absMax = 10` (domain `[-10, 0, 10]`), and
`getColorForValue` returns the ramp's designated high-endpoint color
`#b2182b` at `10` and its low-endpoint color `#2166ac` at `-10`, even
though `-10` is not in the sample. -/
theorem getColorScale_round_trip :
    (ColorMapping.getColorScale (some mdDiverging) sampleRoundTrip).domain
        = [-10, 0, 10]
    ∧ ColorMapping.getColorForValue (some 10)
        (ColorMapping.getColorScale (some mdDiverging) sampleRoundTrip)
        = ColorOut.hex "#b2182b"
    ∧ ColorMapping.getColorForValue (some (-10))
        (ColorMapping.getColorScale (some mdDiverging) sampleRoundTrip)
        = ColorOut.hex "#2166ac" := by
  refine ⟨?_, ?_, ?_⟩ <;>
    norm_num [ColorMapping.getColorScale, mdDiverging, sampleRoundTrip,
      filterValid, jsMin, jsMax, ColorMapping.COLOR_SCHEMES, chromaScaleOf,
      ChromaScale.setDomain, ChromaScale.setMode, ColorMapping.getColorForValue,
      ChromaScale.eval, evalSegments, List.zip, List.zipWith]

/-- Claim C9.  `getColorForValue` returns the single fixed missing-data
gray `#cccccc` for a missing value regardless of the scale; that gray
is distinct from every color of every palette in the `COLOR_SCHEMES`
table (and from the fallback ramp); and for a present value it returns
the result of evaluating the scale at that value. -/
theorem getColorForValue_missing_gray :
    (∀ s : ChromaScale,
      ColorMapping.getColorForValue none s = ColorOut.hex "#cccccc")
    ∧ "#cccccc" ∉ (ColorMapping.COLOR_SCHEMES "RdBu_r").getD []
    ∧ "#cccccc" ∉ (ColorMapping.COLOR_SCHEMES "BuRd").getD []
    ∧ "#cccccc" ∉ (ColorMapping.COLOR_SCHEMES "RdBu").getD []
    ∧ "#cccccc" ∉ (["#2166ac", "#f7f7f7", "#b2182b"] : List String)
    ∧ (∀ (v : ℚ) (s : ChromaScale),
      ColorMapping.getColorForValue (some v) s = s.eval v) := by
  refine ⟨fun s => rfl, ?_, ?_, ?_, ?_, fun v s => rfl⟩ <;> decide

/-- Claim C3.  Whenever the valid sample is non-empty, the median
reported by `calculateStatistics` is the element at index
`floor(n / 2)` of the ascending-sorted valid sample (characterised
against any sorted permutation `l` of the valid values), the
lower-middle element for even `n`; concretely the median of
`[1, 2, 3, 4]` is `3`, not `2.5`. -/
theorem calculateStatistics_median_lower_middle (values : List JVal)
    (l : List ℚ) (hne : filterValid values ≠ [])
    (hsort : l.Sorted (· ≤ ·)) (hperm : l.Perm (filterValid values)) :
    (ColorMapping.calculateStatistics values).median
        = l.getD (l.length / 2) 0
    ∧ (ColorMapping.calculateStatistics
        [some 1, some 2, some 3, some 4]).median = 3 := by
  constructor
  · have heq : l = List.insertionSort (· ≤ ·) (filterValid values) :=
      List.eq_of_perm_of_sorted
        (hperm.trans (List.perm_insertionSort _ _).symm) hsort
        (List.sorted_insertionSort _ _)
    have h0 : ¬((filterValid values).length = 0) := by
      simpa [List.length_eq_zero] using hne
    rw [heq]
    simp only [ColorMapping.calculateStatistics, if_neg h0]
  · norm_num [ColorMapping.calculateStatistics, filterValid,
      List.insertionSort, List.orderedInsert]

/-- Witness for C3 at the concrete sample `[1, 2, 3, 4]`. -/
theorem calculateStatistics_median_lower_middle_witness :
    (ColorMapping.calculateStatistics
        [some 1, some 2, some 3, some 4]).median
      = [(1 : ℚ), 2, 3, 4].getD ([(1 : ℚ), 2, 3, 4].length / 2) 0 :=
  (calculateStatistics_median_lower_middle
    [some 1, some 2, some 3, some 4] [1, 2, 3, 4]
    (by
      have h : filterValid [some 1, some 2, some 3, some 4]
          = [(1 : ℚ), 2, 3, 4] := rfl
      simp [h])
    (by norm_num [List.sorted_cons])
    (by
      have h : filterValid [some 1, some 2, some 3, some 4]
          = [(1 : ℚ), 2, 3, 4] := rfl
      rw [h])).1

/-- Claim C7.  For every non-empty numeric array, the statistics
satisfy `min ≤ mean ≤ max`. -/
theorem calculateStatistics_min_le_mean_le_max (values : List ℚ)
    (h : values ≠ []) :
    (ColorMapping.calculateStatistics (values.map some)).min
        ≤ (ColorMapping.calculateStatistics (values.map some)).mean
    ∧ (ColorMapping.calculateStatistics (values.map some)).mean
        ≤ (ColorMapping.calculateStatistics (values.map some)).max := by
  have hfv : filterValid (values.map some) = values := filterValid_map_some values
  have h0 : ¬((filterValid (values.map some)).length = 0) := by
    simp [hfv, List.length_eq_zero, h]
  have hlen : (0 : ℚ) < (values.length : ℚ) := by
    exact_mod_cast List.length_pos.mpr h
  have hstats : ColorMapping.calculateStatistics (values.map some)
      = { min := (List.insertionSort (· ≤ ·) values).getD 0 0
          max := (List.insertionSort (· ≤ ·) values).getD
            ((List.insertionSort (· ≤ ·) values).length - 1) 0
          mean := (values.foldl (· + ·) 0) / (values.length : ℚ)
          median := (List.insertionSort (· ≤ ·) values).getD
            ((List.insertionSort (· ≤ ·) values).length / 2) 0 } := by
    simp only [ColorMapping.calculateStatistics, hfv]
    rw [if_neg (by simp [List.length_eq_zero, h])]
  have hperm : (List.insertionSort (· ≤ ·) values).Perm values :=
    List.perm_insertionSort _ _
  have hsort : (List.insertionSort (· ≤ ·) values).Sorted (· ≤ ·) :=
    List.sorted_insertionSort _ _
  have hsum : values.foldl (· + ·) 0 = values.sum := by
    rw [foldl_add_eq_add_sum]; ring
  rw [hstats]
  constructor
  · show (List.insertionSort (· ≤ ·) values).getD 0 0
        ≤ (values.foldl (· + ·) 0) / (values.length : ℚ)
    rw [hsum, le_div_iff₀ hlen]
    have hbound : ∀ x ∈ values, (List.insertionSort (· ≤ ·) values).getD 0 0 ≤ x :=
      fun x hx => sorted_getD_zero_le hsort (hperm.mem_iff.mpr hx)
    have := List.card_nsmul_le_sum values _ hbound
    rwa [nsmul_eq_mul, mul_comm] at this
  · show (values.foldl (· + ·) 0) / (values.length : ℚ)
        ≤ (List.insertionSort (· ≤ ·) values).getD
            ((List.insertionSort (· ≤ ·) values).length - 1) 0
    rw [hsum, div_le_iff₀ hlen]
    have hbound : ∀ x ∈ values,
        x ≤ (List.insertionSort (· ≤ ·) values).getD
          ((List.insertionSort (· ≤ ·) values).length - 1) 0 :=
      fun x hx => le_sorted_getD_last hsort x (hperm.mem_iff.mpr hx)
    have := List.sum_le_card_nsmul values _ hbound
    rwa [nsmul_eq_mul, mul_comm] at this

/-- Witness for C7 at the concrete array `[1, 2]`. -/
theorem calculateStatistics_min_le_mean_le_max_witness :
    (ColorMapping.calculateStatistics ([(1 : ℚ), 2].map some)).min
        ≤ (ColorMapping.calculateStatistics ([(1 : ℚ), 2].map some)).mean
    ∧ (ColorMapping.calculateStatistics ([(1 : ℚ), 2].map some)).mean
        ≤ (ColorMapping.calculateStatistics ([(1 : ℚ), 2].map some)).max :=
  calculateStatistics_min_le_mean_le_max [1, 2] (by simp)

/-- Claim C8.  `calculateStatistics` silently filters out missing
entries and never throws (it is a total function invariant under
pre-filtering its input to the valid entries, third conjunct), and
whenever the filtered sample is empty — including the input `[]` — it
returns exactly `{min: 0, max: 0, mean: 0, median: 0}`. -/
theorem calculateStatistics_degenerate :
    (∀ values : List JVal, filterValid values = [] →
      ColorMapping.calculateStatistics values
        = { min := 0, max := 0, mean := 0, median := 0 })
    ∧ ColorMapping.calculateStatistics []
        = { min := 0, max := 0, mean := 0, median := 0 }
    ∧ (∀ values : List JVal,
      ColorMapping.calculateStatistics values
        = ColorMapping.calculateStatistics
            ((filterValid values).map some)) := by
  refine ⟨?_, ?_, ?_⟩
  · intro values hv
    simp [ColorMapping.calculateStatistics, hv]
  · rfl
  · intro values
    simp only [ColorMapping.calculateStatistics, filterValid_map_some]

/-- Witness for C8 at the all-invalid input `[null, null]`. -/
theorem calculateStatistics_degenerate_witness :
    ColorMapping.calculateStatistics [none, none]
      = { min := 0, max := 0, mean := 0, median := 0 } :=
  calculateStatistics_degenerate.1 [none, none] rfl

/-- Claim C6.  For every scale (domain min first, max last) and every
`steps ≥ 2`, `generateLegendItems` returns exactly `steps` entries: the
`i`-th entry's value is `min + ((max - min)/(steps - 1)) * i` — so the
values start at the domain min, end at the domain max, and are evenly
spaced — and its label is that value formatted to 2 decimal places;
with the default `steps` the result has exactly 7 entries. -/
theorem generateLegendItems_evenly_spaced (s : ChromaScale) (steps : ℕ)
    (h : 2 ≤ steps) :
    (ColorMapping.generateLegendItems s steps).length = steps
    ∧ (∀ i, i < steps →
        ((ColorMapping.generateLegendItems s steps).getD i default).value
          = s.domain.getD 0 0
            + ((s.domain.getD (s.domain.length - 1) 0 - s.domain.getD 0 0)
                / ((steps : ℚ) - 1)) * (i : ℚ)
        ∧ ((ColorMapping.generateLegendItems s steps).getD i default).label
          = toFixed2 (s.domain.getD 0 0
            + ((s.domain.getD (s.domain.length - 1) 0 - s.domain.getD 0 0)
                / ((steps : ℚ) - 1)) * (i : ℚ)))
    ∧ ((ColorMapping.generateLegendItems s steps).getD 0 default).value
        = s.domain.getD 0 0
    ∧ ((ColorMapping.generateLegendItems s steps).getD (steps - 1) default).value
        = s.domain.getD (s.domain.length - 1) 0
    ∧ (ColorMapping.generateLegendItems s).length = 7 := by
  have hget : ∀ i, i < steps →
      (ColorMapping.generateLegendItems s steps).getD i default
        = { value := s.domain.getD 0 0
              + ((s.domain.getD (s.domain.length - 1) 0 - s.domain.getD 0 0)
                  / ((steps : ℚ) - 1)) * (i : ℚ)
            color := s.eval (s.domain.getD 0 0
              + ((s.domain.getD (s.domain.length - 1) 0 - s.domain.getD 0 0)
                  / ((steps : ℚ) - 1)) * (i : ℚ))
            label := toFixed2 (s.domain.getD 0 0
              + ((s.domain.getD (s.domain.length - 1) 0 - s.domain.getD 0 0)
                  / ((steps : ℚ) - 1)) * (i : ℚ)) } := by
    intro i hi
    simp only [ColorMapping.generateLegendItems, List.getD_eq_getElem?_getD,
      List.getElem?_map, List.getElem?_range hi, Option.map_some',
      Option.getD_some]
  have h0 : (0 : ℕ) < steps := lt_of_lt_of_le (by norm_num) h
  have hlast : steps - 1 < steps := Nat.sub_lt (lt_of_lt_of_le (by norm_num) h) (by norm_num)
  have hne : ((steps : ℚ) - 1) ≠ 0 := by
    have h2 : (2 : ℚ) ≤ (steps : ℚ) := by exact_mod_cast h
    linarith
  have hcast : ((steps - 1 : ℕ) : ℚ) = (steps : ℚ) - 1 := by
    have h1 : 1 ≤ steps := le_trans (by norm_num) h
    push_cast [Nat.cast_sub h1]
    ring
  refine ⟨?_, ?_, ?_, ?_, ?_⟩
  · simp only [ColorMapping.generateLegendItems, List.length_map,
      List.length_range]
  · intro i hi
    rw [hget i hi]
    exact ⟨rfl, rfl⟩
  · rw [hget 0 h0]
    simp
  · rw [hget (steps - 1) hlast]
    show s.domain.getD 0 0
        + ((s.domain.getD (s.domain.length - 1) 0 - s.domain.getD 0 0)
            / ((steps : ℚ) - 1)) * (((steps - 1 : ℕ) : ℚ))
      = s.domain.getD (s.domain.length - 1) 0
    rw [hcast, div_mul_cancel₀ _ hne]
    ring
  · simp only [ColorMapping.generateLegendItems, List.length_map,
      List.length_range]

/-- Witness for C6 at the concrete round-trip scale with `steps = 7`. -/
theorem generateLegendItems_evenly_spaced_witness :
    (ColorMapping.generateLegendItems
        (ColorMapping.getColorScale (some mdDiverging) sampleRoundTrip) 7).length = 7
    ∧ ((ColorMapping.generateLegendItems
        (ColorMapping.getColorScale (some mdDiverging) sampleRoundTrip) 7).getD 0
          default).value
      = (ColorMapping.getColorScale (some mdDiverging) sampleRoundTrip).domain.getD 0 0 :=
  ⟨(generateLegendItems_evenly_spaced
      (ColorMapping.getColorScale (some mdDiverging) sampleRoundTrip) 7
      (by norm_num)).1,
   (generateLegendItems_evenly_spaced
      (ColorMapping.getColorScale (some mdDiverging) sampleRoundTrip) 7
      (by norm_num)).2.2.1⟩

/-- Claim C4.  Aggregating a feature collection holding exactly two
DC1 municipalities with values 10 and 20 and areas 5 and 7 yields, for
district DC1, `aggregatedValue = 15` (the mean), `count = 2`,
`totalArea = 12`, and `stdDev = 5` — the population standard deviation
of `[10, 20]` (variance divided by `n`, not `n - 1`). -/
theorem aggregateByDistrict_dc1_sample :
    (ColorMappingV0.lookupKey
        (ColorMappingV0.aggregateByDistrict (some fcDC1)) "DC1").map
        (fun d => d.aggregatedValue) = some 15
    ∧ (ColorMappingV0.lookupKey
        (ColorMappingV0.aggregateByDistrict (some fcDC1)) "DC1").map
        (fun d => d.count) = some 2
    ∧ (ColorMappingV0.lookupKey
        (ColorMappingV0.aggregateByDistrict (some fcDC1)) "DC1").map
        (fun d => d.totalArea) = some 12
    ∧ (ColorMappingV0.lookupKey
        (ColorMappingV0.aggregateByDistrict (some fcDC1)) "DC1").map
        (fun d => d.stdDev) = some (5 : ℝ) := by
  refine ⟨?_, ?_, ?_, ?_⟩
  · norm_num [fcDC1, propsDC1a, propsDC1b, ColorMappingV0.aggregateByDistrict,
      ColorMappingV0.addFeature, ColorMappingV0.initDistrict,
      ColorMappingV0.pushFeature, ColorMappingV0.finalizeDistrict,
      ColorMappingV0.lookupKey, ColorMapping.calculateStatistics, filterValid,
      List.find?, List.insertionSort, List.orderedInsert]
  · rfl
  · norm_num [fcDC1, propsDC1a, propsDC1b, ColorMappingV0.aggregateByDistrict,
      ColorMappingV0.addFeature, ColorMappingV0.initDistrict,
      ColorMappingV0.pushFeature, ColorMappingV0.finalizeDistrict,
      ColorMappingV0.lookupKey, ColorMapping.calculateStatistics, filterValid,
      List.find?, List.insertionSort, List.orderedInsert]
  · have h : (ColorMappingV0.lookupKey
        (ColorMappingV0.aggregateByDistrict (some fcDC1)) "DC1").map
        (fun d => d.stdDev)
        = some (ColorMappingV0.calculateStdDev [some 10, some 20]) := rfl
    have h5 : ColorMappingV0.calculateStdDev [some 10, some 20] = 5 := by
      rw [ColorMappingV0.calculateStdDev, if_neg (by simp [filterValid])]
      rw [show ColorMappingV0.stdDevVariance [some 10, some 20] = 25 from by
        norm_num [ColorMappingV0.stdDevVariance, filterValid]]
      rw [show ((25 : ℚ) : ℝ) = (5 : ℝ) ^ 2 by norm_num]
      exact Real.sqrt_sq (by norm_num)
    rw [h, h5]

/-! ### Association-list lemmas for the district aggregator -/

theorem lookupKey_map_update (l : List (String × ColorMappingV0.DistrictAcc))
    (p : ColorMappingV0.FeatureProps) (code : String) :
    ColorMappingV0.lookupKey (l.map fun e =>
        if e.1 == p.district_code
        then (e.1, ColorMappingV0.pushFeature e.2 p) else e) code
      = if code = p.district_code
        then (ColorMappingV0.lookupKey l code).map
          (fun d => ColorMappingV0.pushFeature d p)
        else ColorMappingV0.lookupKey l code := by
  induction l with
  | nil => simp [ColorMappingV0.lookupKey]
  | cons e t ih =>
    by_cases hd : e.1 = p.district_code
    · have h1 : (if e.1 == p.district_code
          then (e.1, ColorMappingV0.pushFeature e.2 p) else e)
          = (e.1, ColorMappingV0.pushFeature e.2 p) := by
        simp [hd]
      by_cases hc : e.1 = code
      · have hcd : code = p.district_code := hc ▸ hd
        rw [List.map_cons, h1]
        simp only [ColorMappingV0.lookupKey]
        rw [List.find?_cons_of_pos _ (by simp [hc]),
          List.find?_cons_of_pos _ (by simp [hc]), if_pos hcd]
        simp
      · have hcd : code ≠ p.district_code := fun h => hc (hd.trans h.symm)
        rw [List.map_cons, h1]
        simp only [ColorMappingV0.lookupKey]
        rw [List.find?_cons_of_neg _ (by simp [hc]),
          List.find?_cons_of_neg _ (by simp [hc]), if_neg hcd]
        simp only [ColorMappingV0.lookupKey] at ih
        rw [if_neg hcd] at ih
        exact ih
    · have h1 : (if e.1 == p.district_code
          then (e.1, ColorMappingV0.pushFeature e.2 p) else e) = e := by
        simp [hd]
      by_cases hc : e.1 = code
      · have hcd : code ≠ p.district_code := fun h => hd (hc.trans h)
        rw [List.map_cons, h1]
        simp only [ColorMappingV0.lookupKey]
        rw [List.find?_cons_of_pos _ (by simp [hc]),
          List.find?_cons_of_pos _ (by simp [hc]), if_neg hcd]
      · rw [List.map_cons, h1]
        simp only [ColorMappingV0.lookupKey]
        rw [List.find?_cons_of_neg _ (by simp [hc]),
          List.find?_cons_of_neg _ (by simp [hc])]
        simp only [ColorMappingV0.lookupKey] at ih
        exact ih

theorem lookupKey_append_single (l : List (String × ColorMappingV0.DistrictAcc))
    (k : String) (d : ColorMappingV0.DistrictAcc) (code : String) :
    ColorMappingV0.lookupKey (l ++ [(k, d)]) code
      = (ColorMappingV0.lookupKey l code).or
          (if code = k then some d else none) := by
  simp only [ColorMappingV0.lookupKey, List.find?_append]
  cases hf : l.find? (fun e => e.1 == code) with
  | none =>
    by_cases hk : code = k
    · simp [hk, List.find?_cons_of_pos]
    · simp [hk, List.find?_cons_of_neg, Ne.symm hk]
  | some e => simp

theorem isSome_lookupKey_of_find?
    (ds : List (String × ColorMappingV0.DistrictAcc)) (k : String)
    (h : (ds.find? (fun e => e.1 == k)).isSome = true) :
    (ColorMappingV0.lookupKey ds k).isSome = true := by
  simp only [ColorMappingV0.lookupKey]
  cases hf : ds.find? (fun e => e.1 == k) with
  | none => rw [hf] at h; cases h
  | some e => simp

theorem lookupKey_addFeature (ds : List (String × ColorMappingV0.DistrictAcc))
    (p : ColorMappingV0.FeatureProps) (code : String) :
    ColorMappingV0.lookupKey (ColorMappingV0.addFeature ds p) code
      = if code = p.district_code
        then some (ColorMappingV0.pushFeature
          ((ColorMappingV0.lookupKey ds code).getD
            (ColorMappingV0.initDistrict p)) p)
        else ColorMappingV0.lookupKey ds code := by
  rw [ColorMappingV0.addFeature]
  by_cases hpres : (ds.find? (fun e => e.1 == p.district_code)).isSome = true
  · simp only [hpres, if_true]
    rw [lookupKey_map_update]
    by_cases hcd : code = p.district_code
    · rw [if_pos hcd, if_pos hcd]
      have hsome := isSome_lookupKey_of_find? ds p.district_code hpres
      rw [← hcd] at hsome
      cases hl : ColorMappingV0.lookupKey ds code with
      | none => rw [hl] at hsome; cases hsome
      | some a => simp
    · rw [if_neg hcd, if_neg hcd]
  · simp only [hpres, if_false, Bool.false_eq_true]
    rw [lookupKey_map_update, lookupKey_append_single]
    by_cases hcd : code = p.district_code
    · rw [if_pos hcd, if_pos hcd]
      have hnone : ColorMappingV0.lookupKey ds code = none := by
        rw [hcd]
        simp only [ColorMappingV0.lookupKey]
        cases hf : ds.find? (fun e => e.1 == p.district_code) with
        | none => rfl
        | some e => exact absurd (by rw [hf]; rfl) hpres
      rw [hnone]
      simp [hcd]
    · rw [if_neg hcd, if_neg hcd]
      simp [hcd]

theorem lookupKey_map_finalize
    (l : List (String × ColorMappingV0.DistrictAcc)) (code : String) :
    ColorMappingV0.lookupKey
        (l.map fun e => (e.1, ColorMappingV0.finalizeDistrict e.2)) code
      = (ColorMappingV0.lookupKey l code).map
          ColorMappingV0.finalizeDistrict := by
  induction l with
  | nil => simp [ColorMappingV0.lookupKey]
  | cons e t ih =>
    by_cases hc : e.1 = code
    · simp only [List.map_cons, ColorMappingV0.lookupKey]
      rw [List.find?_cons_of_pos _ (by simp [hc]),
        List.find?_cons_of_pos _ (by simp [hc])]
      simp
    · simp only [List.map_cons, ColorMappingV0.lookupKey]
      rw [List.find?_cons_of_neg _ (by simp [hc]),
        List.find?_cons_of_neg _ (by simp [hc])]
      simp only [ColorMappingV0.lookupKey] at ih
      exact ih

theorem count_foldl (feats : List ColorMappingV0.Feature)
    (ds : List (String × ColorMappingV0.DistrictAcc)) (code : String) :
    ((ColorMappingV0.lookupKey
        (feats.foldl (fun acc f => ColorMappingV0.addFeature acc f.properties)
          ds) code).map (fun d => d.count)).getD 0
      = ((ColorMappingV0.lookupKey ds code).map (fun d => d.count)).getD 0
        + (feats.filter
            (fun f => f.properties.district_code == code)).length := by
  induction feats generalizing ds with
  | nil => simp
  | cons f t ih =>
    rw [List.foldl_cons, ih (ColorMappingV0.addFeature ds f.properties),
      lookupKey_addFeature]
    by_cases hcd : code = f.properties.district_code
    · rw [if_pos hcd]
      have hpred : (f.properties.district_code == code) = true := by simp [hcd]
      rw [List.filter_cons_of_pos (by simp [hpred])]
      cases hl : ColorMappingV0.lookupKey ds code with
      | none =>
        simp [hl, ColorMappingV0.pushFeature, ColorMappingV0.initDistrict,
          List.length_cons]
        ring
      | some a =>
        simp [hl, ColorMappingV0.pushFeature, List.length_cons]
        ring
    · rw [if_neg hcd]
      have hpred : ¬(f.properties.district_code = code) := fun h => hcd h.symm
      rw [List.filter_cons_of_neg (by simp [hpred])]

theorem values_foldl (feats : List ColorMappingV0.Feature)
    (ds : List (String × ColorMappingV0.DistrictAcc)) (code : String) :
    ((ColorMappingV0.lookupKey
        (feats.foldl (fun acc f => ColorMappingV0.addFeature acc f.properties)
          ds) code).map (fun d => d.values.length)).getD 0
      = ((ColorMappingV0.lookupKey ds code).map
          (fun d => d.values.length)).getD 0
        + (feats.filter (fun f =>
            f.properties.district_code == code
              && f.properties.value.isSome)).length := by
  induction feats generalizing ds with
  | nil => simp
  | cons f t ih =>
    rw [List.foldl_cons, ih (ColorMappingV0.addFeature ds f.properties),
      lookupKey_addFeature]
    by_cases hcd : code = f.properties.district_code
    · rw [if_pos hcd]
      have hpred : (f.properties.district_code == code) = true := by simp [hcd]
      cases hv : f.properties.value with
      | none =>
        rw [List.filter_cons_of_neg (by simp [hv])]
        cases hl : ColorMappingV0.lookupKey ds code with
        | none =>
          simp [hl, ColorMappingV0.pushFeature, ColorMappingV0.initDistrict, hv]
        | some a => simp [hl, ColorMappingV0.pushFeature, hv]
      | some v =>
        rw [List.filter_cons_of_pos (by simp [hpred, hv])]
        cases hl : ColorMappingV0.lookupKey ds code with
        | none =>
          simp [hl, ColorMappingV0.pushFeature, ColorMappingV0.initDistrict, hv]
          ring
        | some a =>
          simp [hl, ColorMappingV0.pushFeature, hv]
          ring
    · rw [if_neg hcd]
      have hpred : ¬(f.properties.district_code = code) := fun h => hcd h.symm
      rw [List.filter_cons_of_neg (by simp [hpred])]

/-- Claim C10.  For every feature collection and every district in the
aggregation result, `count` equals the number of member features
grouped into that district — features with missing values included —
while the valid-value list counts only the members whose value is
present; `count` can therefore strictly exceed the valid-value list's
length (see the witness, where a district holds a `null`-valued
member). -/
theorem aggregateByDistrict_counts (fc : ColorMappingV0.FeatureCollection)
    (code : String) (d : ColorMappingV0.DistrictAgg)
    (h : ColorMappingV0.lookupKey
        (ColorMappingV0.aggregateByDistrict (some fc)) code = some d) :
    d.count = (fc.features.filter
        (fun f => f.properties.district_code == code)).length
    ∧ d.values.length = (fc.features.filter (fun f =>
        f.properties.district_code == code
          && f.properties.value.isSome)).length := by
  simp only [ColorMappingV0.aggregateByDistrict] at h
  rw [lookupKey_map_finalize] at h
  cases ha : ColorMappingV0.lookupKey
      (fc.features.foldl (fun acc f => ColorMappingV0.addFeature acc
        f.properties) []) code with
  | none => rw [ha] at h; cases h
  | some a =>
    rw [ha] at h
    simp only [Option.map_some'] at h
    have hd : d = ColorMappingV0.finalizeDistrict a := (Option.some.inj h).symm
    subst hd
    constructor
    · have hc := count_foldl fc.features [] code
      rw [ha] at hc
      simpa [ColorMappingV0.lookupKey, ColorMappingV0.finalizeDistrict] using hc
    · have hv := values_foldl fc.features [] code
      rw [ha] at hv
      simpa [ColorMappingV0.lookupKey, ColorMappingV0.finalizeDistrict] using hv

/-- Witness for C10 at a collection whose DC1 has one valid-valued and
one `null`-valued member: `count = 2` strictly exceeds the valid-value
list's length `1`. -/
theorem aggregateByDistrict_counts_witness :
    (ColorMappingV0.lookupKey
        (ColorMappingV0.aggregateByDistrict (some fcDC1WithNull)) "DC1").map
        (fun d => d.count) = some 2
    ∧ (ColorMappingV0.lookupKey
        (ColorMappingV0.aggregateByDistrict (some fcDC1WithNull)) "DC1").map
        (fun d => d.values.length) = some 1 := by
  cases hl : ColorMappingV0.lookupKey
      (ColorMappingV0.aggregateByDistrict (some fcDC1WithNull)) "DC1" with
  | none =>
    have hs : (ColorMappingV0.lookupKey
        (ColorMappingV0.aggregateByDistrict (some fcDC1WithNull)) "DC1").isSome
          = true := rfl
    rw [hl] at hs
    cases hs
  | some d =>
    have hcv := aggregateByDistrict_counts fcDC1WithNull "DC1" d hl
    simp only [Option.map_some']
    refine ⟨?_, ?_⟩
    · rw [hcv.1]; rfl
    · rw [hcv.2]; rfl

end ClimateRisk
